import Mathlib

/-!
Shallow embedding of the Fieldwork field-visit tracker (FieldTrack Pro).

The embedded code comes from:
* the `AdminDashboard` component: the `stats`, `workerStats` and
  `filteredVisits` memoized aggregations over the in-memory visit list;
* the `VisitForm` component: the `visitData` construction and the two-step
  (visit upsert, then activity append) write in `handleSubmit`;
* the `Login` component: the `handleAuth` account lookup and verification
  chain.

JavaScript string primitives (`toLowerCase`, `trim`, `includes`) are modelled
over `List Char`; JavaScript truthiness of optional strings and of numbers is
modelled explicitly (`optTruthy`, `jsOrZero`, `jsOrName`).
-/

namespace Fieldwork

/-- Model of JavaScript `String.prototype.toLowerCase` (ASCII-adequate). -/
def lowerStr (s : String) : String := ⟨s.data.map Char.toLower⟩

/-- Whitespace test used by the model of `String.prototype.trim`. -/
def isWs (c : Char) : Bool := c.isWhitespace

/-- Model of JavaScript `String.prototype.trim`: drop whitespace at both ends. -/
def trimStr (s : String) : String :=
  ⟨((s.data.dropWhile isWs).reverse.dropWhile isWs).reverse⟩

/-- Helper for the substring test: `prefOf pat l` holds when `pat` is a prefix of `l`. -/
def prefOf : List Char → List Char → Bool
  | [], _ => true
  | _ :: _, [] => false
  | a :: as, b :: bs => a == b && prefOf as bs

/-- Helper for the substring test: `pat` occurs somewhere inside `s`. -/
def infOf (pat : List Char) (s : List Char) : Bool :=
  match s with
  | [] => prefOf pat []
  | _ :: rest => prefOf pat s || infOf pat rest

/-- Model of JavaScript `s.includes(pat)`. -/
def strIncludes (s pat : String) : Bool := infOf pat.data s.data

/-- Truthiness of an optional string in JavaScript: present and non-empty. -/
def optTruthy : Option String → Bool
  | none => false
  | some s => s != ""

/-- Model of the JavaScript expression `b || 0` on a number (identity on integers,
since `0 || 0` is `0`). -/
def jsOrZero (b : Int) : Int := if b == 0 then 0 else b

/-- Model of the JavaScript expression `s || d` on a string: the default kicks in
exactly when `s` is empty. -/
def jsOrName (s d : String) : String := if s == "" then d else s

/-- Visit outcome status, from `types.ts` (`VisitStatus`). -/
inductive VisitStatus
  | follow_up
  | converted
  | rejected
deriving DecidableEq, Repr

/-- One field-visit record, from `types.ts` (`FieldVisit`). The numeric `budget`
is modelled as an integer; optional string fields are `Option String`. -/
structure FieldVisit where
  worker_name : String
  worker_phone : Option String := none
  client_name : String := ""
  client_type : String := ""
  client_phone : Option String := none
  client_email : Option String := none
  address : String := ""
  landmark : String := ""
  requirements : Option String := none
  budget : Int := 0
  status : VisitStatus
  follow_up_at : Option String := none
  rejection_reason : Option String := none
  latitude : Option Int := none
  longitude : Option Int := none
  photo_url : Option String := none
deriving DecidableEq, Repr

/-- Result of the `stats` memo in `AdminDashboard`: per-status counts, converted
revenue, and the total number of records. -/
structure Stats where
  follow_up : Nat
  converted : Nat
  rejected : Nat
  total_revenue : Int
  total : Nat
deriving DecidableEq, Repr

/-- Embedding of the `stats` memo of `AdminDashboard`: three status filters,
their lengths, the revenue reduce over the converted records, and the overall
length. -/
def stats (visits : List FieldVisit) : Stats :=
  let followUpVisits := visits.filter (fun v => v.status == .follow_up)
  let convertedVisits := visits.filter (fun v => v.status == .converted)
  let rejectedVisits := visits.filter (fun v => v.status == .rejected)
  { follow_up := followUpVisits.length
    converted := convertedVisits.length
    rejected := rejectedVisits.length
    total_revenue := convertedVisits.foldl (fun acc curr => acc + jsOrZero curr.budget) 0
    total := visits.length }

theorem jsOrZero_eq (b : Int) : jsOrZero b = b := by
  unfold jsOrZero
  split <;> simp_all

/-- C1: the status tally partitions the record list — follow_up + converted +
rejected counts sum to the reported total, and the reported total is the length
of the list. -/
theorem stats_tally_sums_to_total (visits : List FieldVisit) :
    (stats visits).follow_up + (stats visits).converted + (stats visits).rejected
        = (stats visits).total
      ∧ (stats visits).total = visits.length := by
  refine ⟨?_, rfl⟩
  simp only [stats]
  induction visits with
  | nil => rfl
  | cons v vs ih =>
    cases h : v.status <;>
      simp [List.filter_cons, h] <;> omega

/-- Replacement of the budget of the record at index `i` (used to state that a
non-converted record's budget cannot influence the revenue total). -/
def setBudgetAt : List FieldVisit → Nat → Int → List FieldVisit
  | [], _, _ => []
  | v :: vs, 0, b => { v with budget := b } :: vs
  | v :: vs, i + 1, b => v :: setBudgetAt vs i b

/-- Status of the record at index `i`, if any. -/
def statusAt (l : List FieldVisit) (i : Nat) : Option VisitStatus :=
  (l.get? i).map (fun v => v.status)

theorem revenue_foldl (l : List FieldVisit) (a : Int) :
    l.foldl (fun acc curr => acc + jsOrZero curr.budget) a
      = a + (l.map FieldVisit.budget).sum := by
  induction l generalizing a with
  | nil => simp
  | cons v vs ih =>
    rw [List.foldl_cons, ih]
    simp [jsOrZero_eq]
    omega

theorem setBudgetAt_converted_map (l : List FieldVisit) (i : Nat) (b : Int)
    (h : statusAt l i ≠ some .converted) :
    ((setBudgetAt l i b).filter (fun v => v.status == .converted)).map FieldVisit.budget
      = (l.filter (fun v => v.status == .converted)).map FieldVisit.budget := by
  induction l generalizing i with
  | nil => rfl
  | cons v vs ih =>
    cases i with
    | zero =>
      have hv : v.status ≠ .converted := by
        simp [statusAt] at h
        exact h
      have hb : (v.status == VisitStatus.converted) = false := by
        simp [hv]
      simp [setBudgetAt, List.filter_cons, hb]
    | succ i =>
      have h' : statusAt vs i ≠ some .converted := by
        simpa [statusAt] using h
      cases hb : (v.status == VisitStatus.converted) <;>
        simp [setBudgetAt, List.filter_cons, hb, ih i h']

/-- C2: the revenue total is the sum of `budget` over exactly the converted
records, and replacing the budget of a record whose status is not `converted`
leaves the revenue total unchanged. -/
theorem stats_revenue_converted_only (visits : List FieldVisit) (i : Nat) (b : Int)
    (h : statusAt visits i ≠ some .converted) :
    (stats visits).total_revenue
        = ((visits.filter fun v => v.status == .converted).map FieldVisit.budget).sum
      ∧ (stats (setBudgetAt visits i b)).total_revenue = (stats visits).total_revenue := by
  constructor
  · simp [stats, revenue_foldl]
  · simp only [stats, revenue_foldl, Int.zero_add]
    rw [setBudgetAt_converted_map visits i b h]

/-- Concrete list for the C2 witness: a follow-up record and a converted one. -/
def c2visits : List FieldVisit :=
  [{ worker_name := "w", status := .follow_up, budget := 7 },
   { worker_name := "w", status := .converted, budget := 500 }]

/-- Witness for C2 at a concrete input: index 0 is a follow-up record, and
changing its budget to 99 leaves the revenue total (500) unchanged. -/
theorem stats_revenue_converted_only_witness :
    statusAt c2visits 0 ≠ some .converted
      ∧ ((stats c2visits).total_revenue
            = ((c2visits.filter fun v => v.status == .converted).map FieldVisit.budget).sum
          ∧ (stats (setBudgetAt c2visits 0 99)).total_revenue
              = (stats c2visits).total_revenue) :=
  ⟨by decide, stats_revenue_converted_only c2visits 0 99 (by decide)⟩

/-- Status selector of the dashboard table: `'all'` or one specific status. -/
inductive StatusFilter
  | all
  | only (s : VisitStatus)
deriving DecidableEq, Repr

/-- Embedding of the search predicate inside the `filteredVisits` memo. The
argument `s` is the already lower-cased search term; names and the email are
lower-cased before the substring test, the client phone is not. The phone and
email branches first test JavaScript truthiness of the stored field. -/
def searchMatch (s : String) (v : FieldVisit) : Bool :=
  strIncludes (lowerStr v.client_name) s ||
  strIncludes (lowerStr v.worker_name) s ||
  (optTruthy v.client_phone && strIncludes (v.client_phone.getD "") s) ||
  (optTruthy v.client_email && strIncludes (lowerStr (v.client_email.getD "")) s)

/-- Embedding of the `filteredVisits` memo of `AdminDashboard`: filter by status
when the selector is not `all`, then, when the search term is truthy
(non-empty), filter by the search predicate on the lower-cased term. -/
def filteredVisits (visits : List FieldVisit) (statusFilter : StatusFilter)
    (search : String) : List FieldVisit :=
  let res := visits
  let res :=
    match statusFilter with
    | .all => res
    | .only s => res.filter (fun v => v.status == s)
  if search != "" then
    let s := lowerStr search
    res.filter (fun v => searchMatch s v)
  else
    res

/-- Status part of the filter predicate, as a single boolean test. -/
def statusPass (f : StatusFilter) (v : FieldVisit) : Bool :=
  match f with
  | .all => true
  | .only s => v.status == s

/-- Search predicate following the spec's words for comparison with the code:
the client name, worker name, client phone, or client email case-insensitively
contains the search term (every field and the term lower-cased). -/
def specSearchMatch (term : String) (v : FieldVisit) : Bool :=
  strIncludes (lowerStr v.client_name) (lowerStr term) ||
  strIncludes (lowerStr v.worker_name) (lowerStr term) ||
  strIncludes (lowerStr (v.client_phone.getD "")) (lowerStr term) ||
  strIncludes (lowerStr (v.client_email.getD "")) (lowerStr term)

/-- Filter following the spec's words for comparison with the code. -/
def filteredVisitsSpec (visits : List FieldVisit) (f : StatusFilter)
    (search : String) : List FieldVisit :=
  visits.filter (fun v => statusPass f v && (search == "" || specSearchMatch search v))

/-- Record whose client phone contains upper-case letters, separating the code's
case-sensitive phone match from the spec's case-insensitive one. -/
def phoneVisit : FieldVisit :=
  { worker_name := "w", client_name := "c", client_phone := some "AB",
    status := .follow_up }

/-- Counterexample for C3 as stated: searching for "AB" (lower-cased by the code
to "ab") fails to match the stored client phone "AB", while the spec's
case-insensitive reading matches it. -/
theorem filteredVisits_phone_case_counterexample :
    filteredVisits [phoneVisit] .all "AB" = []
      ∧ filteredVisitsSpec [phoneVisit] .all "AB" = [phoneVisit] := by
  constructor <;> decide

theorem filter_idem {α : Type} (p : α → Bool) (l : List α) :
    (l.filter p).filter p = l.filter p := by
  induction l with
  | nil => rfl
  | cons a l ih => cases h : p a <;> simp [List.filter_cons, h, ih]

theorem filteredVisits_eq_filter (visits : List FieldVisit) (f : StatusFilter)
    (search : String) :
    filteredVisits visits f search
      = visits.filter
          (fun v => statusPass f v && (search == "" || searchMatch (lowerStr search) v)) := by
  unfold filteredVisits
  by_cases hs : search = ""
  · subst hs
    cases f with
    | all => simp [statusPass]
    | only s => simp [statusPass]
  · have hs' : (search == "") = false := by simp [hs]
    cases f with
    | all => simp [statusPass, hs, hs']
    | only s =>
      simp only [hs, hs', bne_iff_ne, ne_eq, not_false_eq_true, if_true,
        List.filter_filter, Bool.false_or, statusPass]
      apply List.filter_congr
      intro v _
      rw [Bool.and_comm]

/-- C3 (amended): the filter returns exactly the records passing the selected
status and, when the search term is non-empty, whose lower-cased client name,
lower-cased worker name, client phone (compared as stored, case-sensitively),
or lower-cased client email contains the lower-cased search term; an empty
search term matches every record. -/
theorem filteredVisits_characterization (visits : List FieldVisit)
    (f : StatusFilter) (search : String) :
    filteredVisits visits f search
      = visits.filter
          (fun v => statusPass f v && (search == "" || searchMatch (lowerStr search) v)) :=
  filteredVisits_eq_filter visits f search

/-- C10: applying the filter to its own output returns the identical list. -/
theorem filteredVisits_idempotent (visits : List FieldVisit) (f : StatusFilter)
    (search : String) :
    filteredVisits (filteredVisits visits f search) f search
      = filteredVisits visits f search := by
  rw [filteredVisits_eq_filter visits f search,
    filteredVisits_eq_filter (visits.filter _) f search, filter_idem]

/-- Worker name with the JavaScript default: `v.worker_name || 'Unknown'`. -/
def origWorkerName (v : FieldVisit) : String := jsOrName v.worker_name "Unknown"

/-- Normalized grouping key of the worker rollup: trim, then lower-case. -/
def normKey (v : FieldVisit) : String := lowerStr (trimStr (origWorkerName v))

/-- One per-worker rollup entry of the `workerStats` memo. -/
structure WorkerStat where
  name : String
  total : Nat
  converted : Nat
  follow_up : Nat
  rejected : Nat
  phone : Option String
deriving DecidableEq, Repr

/-- Entry freshly inserted into the map when a key is seen for the first time:
trimmed display name, zero counters, and the record's phone as stored. -/
def freshStat (v : FieldVisit) : WorkerStat :=
  { name := trimStr (origWorkerName v), total := 0, converted := 0,
    follow_up := 0, rejected := 0, phone := v.worker_phone }

/-- Per-record mutation of a rollup entry: bump the total, bump the counter of
the record's status, and adopt the record's phone when the entry has no truthy
phone yet and the record's phone is truthy. -/
def bumpStat (s : WorkerStat) (v : FieldVisit) : WorkerStat :=
  let s1 := { s with total := s.total + 1 }
  let s2 :=
    match v.status with
    | .converted => { s1 with converted := s1.converted + 1 }
    | .follow_up => { s1 with follow_up := s1.follow_up + 1 }
    | .rejected => { s1 with rejected := s1.rejected + 1 }
  if !optTruthy s2.phone && optTruthy v.worker_phone then
    { s2 with phone := v.worker_phone }
  else s2

/-- One iteration of the `visits.forEach` loop building the rollup map: insert a
fresh entry when the key is unseen (JavaScript `Map` preserves insertion order,
modelled by appending), then mutate the entry at the key. -/
def workerStep (m : List (String × WorkerStat)) (v : FieldVisit) :
    List (String × WorkerStat) :=
  let k := normKey v
  let m1 := if m.any (fun p => p.1 == k) then m else m ++ [(k, freshStat v)]
  m1.map (fun p => if p.1 == k then (p.1, bumpStat p.2 v) else p)

/-- Rollup map in insertion order, keyed by the normalized worker name. -/
def workerStatsMap (visits : List FieldVisit) : List (String × WorkerStat) :=
  visits.foldl workerStep []

/-- Embedding of the `workerStats` memo of `AdminDashboard`:
`Array.from(map.values())`. -/
def workerStats (visits : List FieldVisit) : List WorkerStat :=
  (workerStatsMap visits).map Prod.snd

/-- Accumulate a key, keeping only its first occurrence. -/
def addKey (acc : List String) (k : String) : List String :=
  if acc.contains k then acc else acc ++ [k]

/-- Normalized keys of a visit list in order of first appearance. -/
def keyList (visits : List FieldVisit) : List String :=
  visits.foldl (fun acc v => addKey acc (normKey v)) []

/-- Records of the group with normalized key `k`, in list order. -/
def groupOf (k : String) (visits : List FieldVisit) : List FieldVisit :=
  visits.filter (fun v => normKey v == k)

/-- Reference description of the rollup entry for key `k`: a fresh entry from
the group's first record, bumped once per record of the group. -/
def entryOf (k : String) (visits : List FieldVisit) : WorkerStat :=
  match groupOf k visits with
  | [] => { name := "", total := 0, converted := 0, follow_up := 0,
            rejected := 0, phone := none }
  | v0 :: rest => (v0 :: rest).foldl bumpStat (freshStat v0)

/-- Display label the spec assigns to the group of key `k`: the first-seen
record's trimmed original name. -/
def displayNameOf (k : String) (visits : List FieldVisit) : String :=
  match groupOf k visits with
  | [] => ""
  | v0 :: _ => trimStr (origWorkerName v0)

/-- Phone value normalized through JavaScript truthiness: `none` for a missing
or empty phone. -/
def presentPhone : Option String → Option String
  | none => none
  | some s => if s == "" then none else some s

theorem optTruthy_eq_isSome_presentPhone (o : Option String) :
    optTruthy o = (presentPhone o).isSome := by
  cases o with
  | none => rfl
  | some s =>
    by_cases h : s = "" <;> simp [optTruthy, presentPhone, h]

theorem bumpStat_name (s : WorkerStat) (v : FieldVisit) :
    (bumpStat s v).name = s.name := by
  unfold bumpStat
  cases v.status <;> dsimp <;> split <;> rfl

theorem bumpStat_total (s : WorkerStat) (v : FieldVisit) :
    (bumpStat s v).total = s.total + 1 := by
  unfold bumpStat
  cases v.status <;> dsimp <;> split <;> rfl

theorem bumpStat_phone (s : WorkerStat) (v : FieldVisit) :
    (bumpStat s v).phone
      = if !optTruthy s.phone && optTruthy v.worker_phone then v.worker_phone
        else s.phone := by
  unfold bumpStat
  cases v.status <;> dsimp <;> split <;> rfl

theorem foldl_bumpStat_name (g : List FieldVisit) (s : WorkerStat) :
    (g.foldl bumpStat s).name = s.name := by
  induction g generalizing s with
  | nil => rfl
  | cons v g ih => rw [List.foldl_cons, ih, bumpStat_name]

theorem foldl_bumpStat_total (g : List FieldVisit) (s : WorkerStat) :
    (g.foldl bumpStat s).total = s.total + g.length := by
  induction g generalizing s with
  | nil => rfl
  | cons v g ih =>
    rw [List.foldl_cons, ih, bumpStat_total, List.length_cons]
    omega

theorem foldl_bumpStat_phone (g : List FieldVisit) (s : WorkerStat) :
    presentPhone (g.foldl bumpStat s).phone
      = match presentPhone s.phone with
        | some p => some p
        | none => g.findSome? (fun v => presentPhone v.worker_phone) := by
  induction g generalizing s with
  | nil =>
    cases h : presentPhone s.phone <;> simp [h]
  | cons v g ih =>
    rw [List.foldl_cons, ih]
    cases hs : presentPhone s.phone with
    | some p =>
      have ht : optTruthy s.phone = true := by
        rw [optTruthy_eq_isSome_presentPhone, hs]; rfl
      simp [bumpStat_phone, ht, hs]
    | none =>
      have ht : optTruthy s.phone = false := by
        rw [optTruthy_eq_isSome_presentPhone, hs]; rfl
      cases hv : presentPhone v.worker_phone with
      | some q =>
        have hvt : optTruthy v.worker_phone = true := by
          rw [optTruthy_eq_isSome_presentPhone, hv]; rfl
        have hq : presentPhone v.worker_phone = some q := hv
        simp [bumpStat_phone, ht, hvt, List.findSome?_cons, hq]
      | none =>
        have hvt : optTruthy v.worker_phone = false := by
          rw [optTruthy_eq_isSome_presentPhone, hv]; rfl
        simp [bumpStat_phone, ht, hvt, hs, List.findSome?_cons, hv]

theorem workerStatsMap_concat (l : List FieldVisit) (v : FieldVisit) :
    workerStatsMap (l ++ [v]) = workerStep (workerStatsMap l) v := by
  simp [workerStatsMap, List.foldl_append]

theorem keyList_concat (l : List FieldVisit) (v : FieldVisit) :
    keyList (l ++ [v]) = addKey (keyList l) (normKey v) := by
  simp [keyList, List.foldl_append]

theorem mem_foldl_addKey (l : List FieldVisit) (acc : List String) (k : String) :
    (k ∈ l.foldl (fun acc v => addKey acc (normKey v)) acc)
      ↔ (k ∈ acc ∨ k ∈ l.map normKey) := by
  induction l generalizing acc with
  | nil => simp
  | cons v l ih =>
    rw [List.foldl_cons, ih]
    have haddKey : k ∈ addKey acc (normKey v) ↔ (k ∈ acc ∨ k = normKey v) := by
      unfold addKey
      by_cases h : acc.contains (normKey v) = true
      · rw [if_pos h]
        have hv : normKey v ∈ acc := List.elem_iff.mp h
        constructor
        · exact Or.inl
        · rintro (h1 | h1)
          · exact h1
          · rw [h1]; exact hv
      · rw [if_neg h]
        simp
    rw [haddKey]
    simp only [List.map_cons, List.mem_cons]
    tauto

theorem mem_keyList (l : List FieldVisit) (k : String) :
    k ∈ keyList l ↔ k ∈ l.map normKey := by
  rw [keyList, mem_foldl_addKey]
  simp

theorem groupOf_ne_nil (l : List FieldVisit) (k : String) :
    groupOf k l ≠ [] ↔ k ∈ l.map normKey := by
  rw [groupOf, Ne, List.filter_eq_nil_iff]
  simp only [List.mem_map, beq_iff_eq, not_forall]
  constructor
  · rintro ⟨v, hv, hk⟩
    exact ⟨v, hv, by simpa using hk⟩
  · rintro ⟨v, hv, hk⟩
    exact ⟨v, hv, by simpa using hk⟩

theorem groupOf_concat (l : List FieldVisit) (v : FieldVisit) (k : String) :
    groupOf k (l ++ [v])
      = groupOf k l ++ (if normKey v == k then [v] else []) := by
  simp only [groupOf, List.filter_append, List.filter_cons, List.filter_nil]

theorem entryOf_concat_other (l : List FieldVisit) (v : FieldVisit) (k : String)
    (h : normKey v ≠ k) :
    entryOf k (l ++ [v]) = entryOf k l := by
  have hb : (normKey v == k) = false := by simpa using h
  unfold entryOf
  rw [groupOf_concat, hb]
  simp

theorem entryOf_concat_same_mem (l : List FieldVisit) (v : FieldVisit) (k : String)
    (hk : normKey v = k) (hne : groupOf k l ≠ []) :
    entryOf k (l ++ [v]) = bumpStat (entryOf k l) v := by
  have hb : (normKey v == k) = true := by simpa using hk
  obtain ⟨v0, rest, hg⟩ : ∃ v0 rest, groupOf k l = v0 :: rest := by
    cases h : groupOf k l with
    | nil => exact absurd h hne
    | cons v0 rest => exact ⟨v0, rest, rfl⟩
  unfold entryOf
  rw [groupOf_concat, hb, hg]
  simp [List.foldl_append]

theorem entryOf_concat_same_new (l : List FieldVisit) (v : FieldVisit) (k : String)
    (hk : normKey v = k) (hnil : groupOf k l = []) :
    entryOf k (l ++ [v]) = bumpStat (freshStat v) v := by
  have hb : (normKey v == k) = true := by simpa using hk
  unfold entryOf
  rw [groupOf_concat, hb, hnil]
  simp

theorem workerStatsMap_eq (visits : List FieldVisit) :
    workerStatsMap visits = (keyList visits).map (fun k => (k, entryOf k visits)) := by
  induction visits using List.reverseRecOn with
  | nil => rfl
  | append_singleton l v ih =>
    rw [workerStatsMap_concat, ih, keyList_concat]
    by_cases hmem : normKey v ∈ keyList l
    · have hany : (((keyList l).map (fun k => (k, entryOf k l))).any
          (fun p => p.1 == normKey v)) = true := by
        rw [List.any_eq_true]
        exact ⟨(normKey v, entryOf (normKey v) l),
          List.mem_map.mpr ⟨normKey v, hmem, rfl⟩, by simp⟩
      have haddKey : addKey (keyList l) (normKey v) = keyList l := by
        unfold addKey
        rw [if_pos (List.elem_iff.mpr hmem)]
      rw [haddKey]
      simp only [workerStep]
      rw [if_pos hany, List.map_map]
      apply List.map_congr_left
      intro k' hk'
      by_cases he : k' = normKey v
      · subst he
        have hgrp : groupOf (normKey v) l ≠ [] :=
          (groupOf_ne_nil l (normKey v)).mpr ((mem_keyList l (normKey v)).mp hk')
        simp [entryOf_concat_same_mem l v (normKey v) rfl hgrp]
      · have hb : (k' == normKey v) = false := by simpa using he
        simp [hb, he, entryOf_concat_other l v k' (fun h => he h.symm)]
    · have hany : (((keyList l).map (fun k => (k, entryOf k l))).any
          (fun p => p.1 == normKey v)) = false := by
        rw [Bool.eq_false_iff, Ne, List.any_eq_true]
        rintro ⟨p, hp, hpk⟩
        obtain ⟨k', hk', rfl⟩ := List.mem_map.mp hp
        have hke : k' = normKey v := by simpa using hpk
        exact hmem (hke ▸ hk')
      have haddKey : addKey (keyList l) (normKey v) = keyList l ++ [normKey v] := by
        unfold addKey
        rw [if_neg]
        intro h
        exact hmem (List.elem_iff.mp h)
      rw [haddKey]
      simp only [workerStep]
      rw [if_neg (by simp [hany]), List.map_append, List.map_append, List.map_map]
      have hnil : groupOf (normKey v) l = [] := by
        by_contra h
        exact hmem ((mem_keyList l (normKey v)).mpr ((groupOf_ne_nil l (normKey v)).mp h))
      have hlast : entryOf (normKey v) (l ++ [v]) = bumpStat (freshStat v) v :=
        entryOf_concat_same_new l v (normKey v) rfl hnil
      congr 1
      · apply List.map_congr_left
        intro k' hk'
        have he : k' ≠ normKey v := fun h => hmem (h ▸ hk')
        have hb : (k' == normKey v) = false := by simpa using he
        simp [hb, he, entryOf_concat_other l v k' (fun h => he h.symm)]
      · simp [hlast]

/-- Three records whose worker names normalize to the same key. -/
def janeVisits : List FieldVisit :=
  [{ worker_name := "Jane", status := .follow_up },
   { worker_name := " jane ", status := .follow_up },
   { worker_name := "JANE", status := .follow_up }]

/-- C4: the worker rollup has one entry per normalized (trimmed, lower-cased,
missing defaulting to "Unknown") worker name in order of first appearance; each
entry's display name is the first-seen record's trimmed original name and its
total is the group's size. In particular, "Jane", " jane ", "JANE" collapse
into a single entry named "Jane" with total 3. -/
theorem workerStats_grouping :
    (∀ visits : List FieldVisit,
        (workerStats visits).map (fun e => (e.name, e.total))
          = (keyList visits).map
              (fun k => (displayNameOf k visits, (groupOf k visits).length)))
      ∧ ((workerStats janeVisits).length = 1
          ∧ (workerStats janeVisits).map (fun e => (e.name, e.total)) = [("Jane", 3)]) := by
  constructor
  · intro visits
    rw [workerStats, workerStatsMap_eq, List.map_map, List.map_map]
    apply List.map_congr_left
    intro k hk
    have hgrp : groupOf k visits ≠ [] :=
      (groupOf_ne_nil _ _).mpr ((mem_keyList _ _).mp hk)
    obtain ⟨v0, rest, hg⟩ : ∃ v0 rest, groupOf k visits = v0 :: rest := by
      cases h : groupOf k visits with
      | nil => exact absurd h hgrp
      | cons v0 rest => exact ⟨v0, rest, rfl⟩
    simp [entryOf, displayNameOf, hg, foldl_bumpStat_name, foldl_bumpStat_total,
      bumpStat_name, bumpStat_total, freshStat]
    omega
  · constructor <;> decide

/-- C9: per rollup entry, the truthiness-normalized stored phone equals the
first non-empty `worker_phone` among that group's records in list order, and is
absent (`none` after normalization, i.e. missing or empty as stored) when no
record of the group carries a non-empty phone. -/
theorem workerStats_phone (visits : List FieldVisit) :
    (workerStats visits).map (fun e => presentPhone e.phone)
      = (keyList visits).map
          (fun k => (groupOf k visits).findSome? (fun v => presentPhone v.worker_phone)) := by
  rw [workerStats, workerStatsMap_eq, List.map_map, List.map_map]
  apply List.map_congr_left
  intro k hk
  have hgrp : groupOf k visits ≠ [] :=
    (groupOf_ne_nil _ _).mpr ((mem_keyList _ _).mp hk)
  obtain ⟨v0, rest, hg⟩ : ∃ v0 rest, groupOf k visits = v0 :: rest := by
    cases h : groupOf k visits with
    | nil => exact absurd h hgrp
    | cons v0 rest => exact ⟨v0, rest, rfl⟩
  have hent : entryOf k visits = (v0 :: rest).foldl bumpStat (freshStat v0) := by
    simp [entryOf, hg]
  simp only [Function.comp]
  rw [hent, foldl_bumpStat_phone, hg]
  cases hv : presentPhone v0.worker_phone with
  | some p => simp [freshStat, hv, List.findSome?_cons]
  | none => simp [freshStat, hv, List.findSome?_cons]

/-- Activity action kinds, from `types.ts` (`ActivityType`). -/
inductive ActivityType
  | created
  | updated
  | status_changed
  | follow_up_added
  | assigned
deriving DecidableEq, Repr

/-- One activity-log entry as inserted by the form (store-generated `id` and
`created_at` omitted), from `types.ts` (`VisitActivity`). -/
structure VisitActivity where
  visit_id : String
  action_type : ActivityType
  field_name : Option String := none
  old_value : Option String := none
  new_value : Option String := none
  note : String
  performed_by : String
deriving DecidableEq, Repr

/-- Form state of `VisitForm` (`formData`): every text field is a plain string,
`follow_up_at` and `rejection_reason` included. -/
structure VisitFormState where
  worker_name : String
  worker_phone : String := ""
  client_name : String := ""
  client_type : String := ""
  client_phone : String := ""
  client_email : String := ""
  landmark : String := ""
  requirements : String := ""
  budget : Int := 0
  status : VisitStatus
  follow_up_at : String := ""
  rejection_reason : String := ""
deriving DecidableEq, Repr

/-- Embedding of the `visitData` object built in `handleSubmit`: the form data
spread, with `address` blanked and `follow_up_at`, `budget`,
`rejection_reason` masked by the selected status. -/
def buildVisitData (fd : VisitFormState) (latitude longitude : Option Int)
    (photo_url : Option String) : FieldVisit :=
  { worker_name := fd.worker_name
    worker_phone := some fd.worker_phone
    client_name := fd.client_name
    client_type := fd.client_type
    client_phone := some fd.client_phone
    client_email := some fd.client_email
    address := ""
    landmark := fd.landmark
    requirements := some fd.requirements
    budget := if fd.status == .converted then fd.budget else 0
    status := fd.status
    follow_up_at := if fd.status == .follow_up then some fd.follow_up_at else none
    rejection_reason := if fd.status == .rejected then some fd.rejection_reason else none
    latitude := latitude
    longitude := longitude
    photo_url := photo_url }

/-- Status-exclusivity invariant of the spec: `follow_up_at` absent unless the
status is `follow_up`, `budget` zero unless `converted`, `rejection_reason`
absent unless `rejected`. -/
def statusExclusive (v : FieldVisit) : Bool :=
  (v.status == .follow_up || v.follow_up_at == none) &&
  (v.status == .converted || v.budget == 0) &&
  (v.status == .rejected || v.rejection_reason == none)

/-- C5: every visit record the form writes (the same `visitData` is used by the
create and the update branch) satisfies the status-exclusivity invariant,
whatever the form state holds. -/
theorem form_write_status_exclusive (fd : VisitFormState)
    (lat lng : Option Int) (photo_url : Option String) :
    statusExclusive (buildVisitData fd lat lng photo_url) = true := by
  unfold statusExclusive buildVisitData
  cases fd.status <;> simp

/-- String value of a status as interpolated into activity notes. -/
def statusText : VisitStatus → String
  | .follow_up => "follow_up"
  | .converted => "converted"
  | .rejected => "rejected"

/-- Activity entry appended after a successful visit update. -/
def updateActivity (fd : VisitFormState) (visitId : String) : VisitActivity :=
  { visit_id := visitId
    action_type := .updated
    performed_by := fd.worker_name
    note := "Visit updated. Status: " ++ statusText fd.status
    new_value := some (statusText fd.status)
    field_name := some "status" }

/-- Activity entry appended after a successful visit insert. -/
def createActivity (fd : VisitFormState) (visitId : String) : VisitActivity :=
  { visit_id := visitId
    action_type := .created
    performed_by := fd.worker_name
    note := "New visit created with status: " ++ statusText fd.status
    new_value := some (statusText fd.status)
    field_name := some "status" }

/-- Remote store contents touched by the form: visit records keyed by id, and
the append-only activity log. -/
structure Store where
  visits : List (String × FieldVisit)
  activities : List VisitActivity
deriving DecidableEq, Repr

/-- Outcome surfaced by `handleSubmit`: the success banner text, or the caught
error message state. -/
inductive SubmitOutcome
  | success (text : String)
  | failure
deriving DecidableEq, Repr

/-- Embedding of the post-validation write sequence of `handleSubmit`. The
booleans model whether the external store accepts each write. A failed visit
upsert throws and is caught (error outcome, store unchanged); the activity
insert's result object is discarded by the source, so its failure changes
nothing but the log. -/
def handleSubmit (st : Store) (fd : VisitFormState) (lat lng : Option Int)
    (photo_url : Option String) (existingId : Option String) (newId : String)
    (visitWriteOk activityWriteOk : Bool) : Store × SubmitOutcome :=
  let visitData := buildVisitData fd lat lng photo_url
  match existingId with
  | some id =>
    if !visitWriteOk then (st, .failure)
    else
      let st1 := { st with
        visits := st.visits.map (fun p => if p.1 == id then (p.1, visitData) else p) }
      let st2 :=
        if activityWriteOk then
          { st1 with activities := st1.activities ++ [updateActivity fd id] }
        else st1
      (st2, .success "Visit updated successfully!")
  | none =>
    if !visitWriteOk then (st, .failure)
    else
      let st1 := { st with visits := st.visits ++ [(newId, visitData)] }
      let st2 :=
        if activityWriteOk then
          { st1 with activities := st1.activities ++ [createActivity fd newId] }
        else st1
      (st2, .success "Visit recorded successfully!")

/-- C6: when the visit write succeeds and the activity append fails, both the
update and the create branch keep the visit write in the store, leave the
activity log untouched, and still report success. -/
theorem submit_commits_despite_activity_failure (st : Store) (fd : VisitFormState)
    (lat lng : Option Int) (photo_url : Option String) (id newId : String) :
    (handleSubmit st fd lat lng photo_url (some id) newId true false
        = ({ st with
              visits := st.visits.map
                (fun p => if p.1 == id then (p.1, buildVisitData fd lat lng photo_url) else p) },
           .success "Visit updated successfully!"))
      ∧ (handleSubmit st fd lat lng photo_url none newId true false
          = ({ st with visits := st.visits ++ [(newId, buildVisitData fd lat lng photo_url)] },
             .success "Visit recorded successfully!")) := by
  constructor <;> rfl

/-- Account role, from `types.ts` (`UserRole`). -/
inductive UserRole
  | worker
  | admin
deriving DecidableEq, Repr

/-- One account row of the remote `users` table, from `types.ts`
(`UserProfile`; the store-generated `id` and `created_at` are omitted). -/
structure UserProfile where
  name : String
  role : UserRole
  mobile : String
  email : String
  password_hash : String
  is_active : Bool
deriving DecidableEq, Repr

/-- Portal the login form was opened for (the `'choice'` screen never submits). -/
inductive Portal
  | worker
  | admin
deriving DecidableEq, Repr

/-- Outcome of `handleAuth`: `onLogin` fired with the account's role and name,
or the caught error message. -/
inductive AuthResult
  | loggedIn (role : UserRole) (name : String)
  | failure (msg : String)
deriving DecidableEq, Repr

/-- Identifier predicate of the account lookup: the `or` query compares the
email when the cleaned identifier contains `@`, the mobile otherwise. -/
def authMatches (cleanId : String) (isEmail : Bool) (u : UserProfile) : Bool :=
  if isEmail then u.email == cleanId else u.mobile == cleanId

/-- Verification chain applied to one account: portal/role check, active flag,
then the direct (plaintext) password comparison. -/
def verifyUser (portal : Portal) (user : UserProfile) (password : String) :
    AuthResult :=
  if portal == .worker && user.role != .worker then
    .failure "Access Denied: This account is not registered as a Field Worker."
  else if portal == .admin && user.role != .admin then
    .failure "Access Denied: Administrative privileges required."
  else if user.is_active == false then
    .failure "Account Suspended: Please contact your administrator."
  else if user.password_hash != password then
    .failure "Incorrect password. Please try again."
  else
    .loggedIn user.role user.name

/-- Embedding of `handleAuth` in the `Login` component: clean the identifier
(trim, lower-case), query accounts matching it by email or mobile, fail when
none matches, and otherwise run the verification chain on the first row
(`data[0]`). The handler only reads the users table, so the store is returned
unchanged. -/
def handleAuth (users : List UserProfile) (portal : Portal)
    (identifier password : String) : List UserProfile × AuthResult :=
  let cleanId := lowerStr (trimStr identifier)
  let isEmail := strIncludes cleanId "@"
  let data := users.filter (authMatches cleanId isEmail)
  match data with
  | [] => (users, .failure "Invalid credentials or account not found.")
  | user :: _ =>
    if portal == .worker && user.role != .worker then
      (users, .failure "Access Denied: This account is not registered as a Field Worker.")
    else if portal == .admin && user.role != .admin then
      (users, .failure "Access Denied: Administrative privileges required.")
    else if user.is_active == false then
      (users, .failure "Account Suspended: Please contact your administrator.")
    else if user.password_hash != password then
      (users, .failure "Incorrect password. Please try again.")
    else (users, .loggedIn user.role user.name)

/-- C7: a role/portal mismatch — worker account on the admin portal or admin
account on the worker portal — is rejected with the corresponding
access-denied message, and the stored accounts are returned unchanged. -/
theorem auth_role_mismatch_denied (users : List UserProfile)
    (identifier password : String) (u : UserProfile)
    (h : (users.filter (authMatches (lowerStr (trimStr identifier))
            (strIncludes (lowerStr (trimStr identifier)) "@"))).head? = some u) :
    (u.role = .worker →
        handleAuth users .admin identifier password
          = (users, .failure "Access Denied: Administrative privileges required."))
      ∧ (u.role = .admin →
          handleAuth users .worker identifier password
            = (users, .failure "Access Denied: This account is not registered as a Field Worker.")) := by
  cases hd : users.filter (authMatches (lowerStr (trimStr identifier))
      (strIncludes (lowerStr (trimStr identifier)) "@")) with
  | nil => rw [hd] at h; exact absurd h (by simp)
  | cons a rest =>
    rw [hd] at h
    have ha : a = u := by simpa using h
    subst ha
    constructor <;> intro hrole <;> simp [handleAuth, hd, hrole]

/-- C8: the lookup uses the identifier-matching rows — no matching account
blocks the login with the not-found message, and a unique matching account is
the one the role, active-flag and password verifications run against. -/
theorem auth_unique_lookup (users : List UserProfile) (portal : Portal)
    (identifier password : String) (u : UserProfile) :
    ((users.filter (authMatches (lowerStr (trimStr identifier))
          (strIncludes (lowerStr (trimStr identifier)) "@")) = [] →
        handleAuth users portal identifier password
          = (users, .failure "Invalid credentials or account not found.")))
      ∧ (users.filter (authMatches (lowerStr (trimStr identifier))
            (strIncludes (lowerStr (trimStr identifier)) "@")) = [u] →
          handleAuth users portal identifier password
            = (users, verifyUser portal u password)) := by
  constructor <;> intro h
  · simp [handleAuth, h]
  · simp only [handleAuth, h, verifyUser]
    split_ifs <;> rfl

/-- Demo worker account used by the auth witnesses. -/
def demoWorker : UserProfile :=
  { name := "Wren", role := .worker, mobile := "9999999999",
    email := "w@x.co", password_hash := "pw", is_active := true }

/-- Witness for C7 at a concrete input: the single matching account has role
worker, and the admin portal rejects it with the privileges message. -/
theorem auth_role_mismatch_denied_witness :
    ([demoWorker].filter (authMatches (lowerStr (trimStr "w@x.co"))
          (strIncludes (lowerStr (trimStr "w@x.co")) "@"))).head? = some demoWorker
      ∧ demoWorker.role = .worker
      ∧ handleAuth [demoWorker] .admin "w@x.co" "pw"
          = ([demoWorker], .failure "Access Denied: Administrative privileges required.") :=
  ⟨by decide, by decide,
    (auth_role_mismatch_denied [demoWorker] "w@x.co" "pw" demoWorker (by decide)).1
      (by decide)⟩

/-- Witness for C8 at concrete inputs: an empty store yields the not-found
message, and a store holding exactly the matching demo account is verified
against that account. -/
theorem auth_unique_lookup_witness :
    (handleAuth [] .admin "a@b.co" "x"
        = ([], .failure "Invalid credentials or account not found."))
      ∧ (handleAuth [demoWorker] .worker "w@x.co" "pw"
          = ([demoWorker], verifyUser .worker demoWorker "pw")) :=
  ⟨(auth_unique_lookup [] .admin "a@b.co" "x" demoWorker).1 (by decide),
   (auth_unique_lookup [demoWorker] .worker "w@x.co" "pw" demoWorker).2 (by decide)⟩

end Fieldwork
